import Mathlib

/-!
# Relay — verification of the safety-gated action orchestration core

Shallow embedding of the safety-relevant parts of the Relay assistant:

* `CommandExecutor` (src/main/modules/command-executor.js): the dangerous-pattern
  blocklist, `runCustomCommand`, the `safeCommands` catalog and `runSafeCommand`,
  `killProcessByName` sanitization, and the `logCommand` audit ring buffer;
* `SolutionEngine` (src/main/modules/solutions.js): the declared-type blocklist
  (`isSafe`), `execute`, and the unbounded `log` audit list;
* the renderer (renderer.js): `parseAIResponse`, the agentic loop
  (`processSystemMessage` / `executeQueryActionAgentic`), the `sendMessage`
  auto-dispatch of query actions, and the `[SYSTEM_RESULT: ...]` construction.

Strings are modelled with Lean `String` / `List Char`; JavaScript's `exec`
spawning is modelled by outcome constructors that carry the command text, so
"spawns no process" is "the outcome is not the spawning constructor".
-/

set_option autoImplicit false
set_option maxRecDepth 20000
set_option linter.unusedVariables false

namespace Relay

/-- JavaScript's `\s` character class, restricted to the code points that can
occur in this code base (ASCII whitespace plus NBSP); `trim` uses the same set. -/
def isJsWs (c : Char) : Bool :=
  c == ' ' || c == '\t' || c == '\n' || c == '\r' || c == '\x0b' || c == '\x0c' || c == '\xa0'

/-- Lowercase a string to a character list; models the `i` flag of the blocklist
regexes (all their literal letters are lowercase ASCII). -/
def lowerChars (s : String) : List Char :=
  s.data.map Char.toLower

namespace CommandExecutor

/-- A token of one of the fixed blocklist regexes: a literal run, `\s+`, or `\s*`.
Every pattern in `dangerousPatterns` is a sequence of these. -/
inductive RTok where
  | lit (w : String)
  | ws1
  | ws0
  deriving DecidableEq

/-- Match a token sequence at the head of `cs`.  `\s+`/`\s*` are compiled as
maximal-munch whitespace runs, which agrees with the regex semantics because in
every pattern of `dangerousPatterns` the token after `\s+`/`\s*` is a literal
starting with a non-whitespace character. -/
def matchToks : List RTok → List Char → Bool
  | [], _ => true
  | RTok.lit w :: rest, cs => w.data.isPrefixOf cs && matchToks rest (cs.drop w.data.length)
  | RTok.ws1 :: rest, cs =>
    match cs with
    | [] => false
    | c :: cs2 => isJsWs c && matchToks rest (cs2.dropWhile isJsWs)
  | RTok.ws0 :: rest, cs => matchToks rest (cs.dropWhile isJsWs)

/-- `pattern.test(s)`: match the token sequence at some position of `cs`. -/
def matchesAnywhere (p : List RTok) : List Char → Bool
  | [] => matchToks p []
  | c :: cs => matchToks p (c :: cs) || matchesAnywhere p cs

/-- `CommandExecutor.dangerousPatterns` (command-executor.js:20-33), in source
order: `rm\s+-rf`, `rmdir`, `del\s+\/s`, `format`, `mkfs`, `dd\s+if=`,
`>\s*\/dev\/`, `sudo`, `chmod\s+777`, `killall`, `shutdown`, `reboot`,
all with the `i` flag. -/
def dangerousPatterns : List (List RTok) :=
  [ [RTok.lit "rm", RTok.ws1, RTok.lit "-rf"],
    [RTok.lit "rmdir"],
    [RTok.lit "del", RTok.ws1, RTok.lit "/s"],
    [RTok.lit "format"],
    [RTok.lit "mkfs"],
    [RTok.lit "dd", RTok.ws1, RTok.lit "if="],
    [RTok.lit ">", RTok.ws0, RTok.lit "/dev/"],
    [RTok.lit "sudo"],
    [RTok.lit "chmod", RTok.ws1, RTok.lit "777"],
    [RTok.lit "killall"],
    [RTok.lit "shutdown"],
    [RTok.lit "reboot"] ]

/-- `CommandExecutor.isDangerous` (command-executor.js:132-134):
`this.dangerousPatterns.some(pattern => pattern.test(command))`. -/
def isDangerous (command : String) : Bool :=
  dangerousPatterns.any (fun p => matchesAnywhere p (lowerChars command))

/-- Outcome of `runCustomCommand`: either the security refusal
`{ success: false, error: ..., blocked: true }`, or the command is handed to
`execAsync` with the stated timeout and output cap. -/
inductive CustomCmdOutcome where
  | blocked (error : String)
  | executed (command : String) (timeoutMs maxBufferBytes : Nat)
  deriving DecidableEq

/-- `CommandExecutor.runCustomCommand` (command-executor.js:187-224), default
options path (`options.timeout || 60000`, `maxBuffer: 1024 * 1024`).  The
`platform` field of the class is taken as a parameter; the function never
consults it. -/
def runCustomCommand (platform command : String) : CustomCmdOutcome :=
  if isDangerous command then
    CustomCmdOutcome.blocked "This command is not allowed for security reasons."
  else
    CustomCmdOutcome.executed command 60000 (1024 * 1024)

/-- `CommandExecutor.safeCommands` (command-executor.js:39-120): the full
catalog, as an ordered association list `commandKey ↦ (platform ↦ command)`. -/
def safeCommands : List (String × List (String × String)) :=
  [ ("system-info",
      [ ("darwin", "system_profiler SPHardwareDataType"),
        ("win32", "systeminfo"),
        ("linux", "lscpu && free -h") ]),
    ("disk-usage",
      [ ("darwin", "df -h"),
        ("win32", "wmic logicaldisk get size,freespace,caption"),
        ("linux", "df -h") ]),
    ("memory-info",
      [ ("darwin", "vm_stat"),
        ("win32", "wmic memorychip get capacity"),
        ("linux", "free -h") ]),
    ("process-list",
      [ ("darwin", "ps -ax -o pid,%mem,%cpu,comm | head -20"),
        ("win32", "powershell \"Get-Process | Select-Object -First 20\""),
        ("linux", "ps aux | head -20") ]),
    ("top-processes",
      [ ("darwin", "ps -amcwwwxo pid,%mem,%cpu,command | head -11"),
        ("win32", "powershell \"Get-Process | Sort-Object -Property WS -Descending | Select-Object -First 10\""),
        ("linux", "ps aux --sort=-%mem | head -10") ]),
    ("network-info",
      [ ("darwin", "networksetup -listallhardwareports && ifconfig en0"),
        ("win32", "ipconfig"),
        ("linux", "ip addr") ]),
    ("dns-servers",
      [ ("darwin", "scutil --dns | grep nameserver | head -5"),
        ("win32", "powershell \"(Get-DnsClientServerAddress).ServerAddresses\""),
        ("linux", "cat /etc/resolv.conf") ]),
    ("uptime",
      [ ("darwin", "uptime"),
        ("win32", "powershell \"(Get-Date) - (Get-CimInstance Win32_OperatingSystem).LastBootUpTime\""),
        ("linux", "uptime") ]),
    ("battery",
      [ ("darwin", "pmset -g batt"),
        ("win32", "powershell \"(Get-WmiObject Win32_Battery).EstimatedChargeRemaining\""),
        ("linux", "upower -i /org/freedesktop/UPower/devices/battery_BAT0") ]),
    ("startup-apps",
      [ ("darwin", "osascript -e \x27tell application \"System Events\" to get name of every login item\x27"),
        ("win32", "powershell \"Get-CimInstance Win32_StartupCommand | Select-Object Name, Command\""),
        ("linux", "ls ~/.config/autostart") ]),
    ("installed-apps",
      [ ("darwin", "ls /Applications"),
        ("win32", "powershell \"Get-ItemProperty HKLM:\\Software\\Microsoft\\Windows\\CurrentVersion\\Uninstall\\* | Select-Object DisplayName | Select-Object -First 30\""),
        ("linux", "dpkg --list | head -30") ]),
    ("temp-files-size",
      [ ("darwin", "du -sh ~/Library/Caches 2>/dev/null || echo \"N/A\""),
        ("win32", "powershell \"(Get-ChildItem $env:TEMP -Recurse -ErrorAction SilentlyContinue | Measure-Object -Property Length -Sum).Sum / 1MB\""),
        ("linux", "du -sh /tmp 2>/dev/null || echo \"N/A\"") ]),
    ("browser-processes",
      [ ("darwin", "ps aux | grep -iE \"(Chrome|Safari|Firefox)\" | grep -v grep | head -10"),
        ("win32", "powershell \"Get-Process | Where-Object \x7b $_.Name -match \x27chrome|firefox|msedge\x27 \x7d | Select-Object -First 10\""),
        ("linux", "ps aux | grep -E \"(chrome|firefox)\" | grep -v grep | head -10") ]),
    ("printer-status",
      [ ("darwin", "lpstat -p"),
        ("win32", "powershell \"Get-Printer | Select-Object Name,PrinterStatus,JobCount\""),
        ("linux", "lpstat -p") ]),
    ("printer-queue",
      [ ("darwin", "lpstat -o"),
        ("win32", "powershell \"Get-PrintJob -PrinterName *\""),
        ("linux", "lpstat -o") ]) ]

/-- `CommandExecutor.isSafeCommand` (command-executor.js:125-127):
`this.safeCommands.hasOwnProperty(commandKey)`. -/
def isSafeCommand (commandKey : String) : Bool :=
  (List.lookup commandKey safeCommands).isSome

/-- Outcome of `runSafeCommand`: unknown key, platform-unsupported, or the
platform command handed to `execAsync` (30 s timeout, 1 MB output cap). -/
inductive SafeCmdOutcome where
  | unknownKey (error : String)
  | unsupported (error : String)
  | spawned (command : String) (timeoutMs maxBufferBytes : Nat)
  deriving DecidableEq

/-- `CommandExecutor.runSafeCommand` (command-executor.js:139-163) up to the
`execAsync` call.  `if (!command)` is a lookup miss: every command string in the
catalog is non-empty, so the only falsy value `commandMap[this.platform]` can
take is `undefined`. -/
def runSafeCommand (platform commandKey : String) : SafeCmdOutcome :=
  match List.lookup commandKey safeCommands with
  | none => SafeCmdOutcome.unknownKey ("Unknown command: " ++ commandKey)
  | some commandMap =>
    match List.lookup platform commandMap with
    | none => SafeCmdOutcome.unsupported ("Command not supported on " ++ platform)
    | some command => SafeCmdOutcome.spawned command 30000 (1024 * 1024)

/-- The character class kept by `killProcessByName`'s sanitizer
(command-executor.js:250): `[a-zA-Z0-9\s\-_.]` — everything else is stripped. -/
def isSafeNameChar (c : Char) : Bool :=
  (Char.ofNat 97 ≤ c && c ≤ Char.ofNat 122) ||
  (Char.ofNat 65 ≤ c && c ≤ Char.ofNat 90) ||
  (Char.ofNat 48 ≤ c && c ≤ Char.ofNat 57) ||
  isJsWs c || c == '-' || c == '_' || c == '.'

/-- `name.replace(/[^a-zA-Z0-9\s\-_.]/g, '')` (command-executor.js:250). -/
def sanitizeProcessName (name : String) : String :=
  String.mk (name.data.filter isSafeNameChar)

/-- `CommandExecutor.killProcessByName` (command-executor.js:248-269): the
command string built from the sanitized name and handed to `execAsync`.  The
function has no rejection path: it always proceeds to dispatch. -/
def killProcessByName (platform name : String) : String :=
  let safeName := sanitizeProcessName name
  if platform = "win32" then
    "taskkill /F /IM \"" ++ safeName ++ ".exe\" 2>nul || taskkill /F /IM \"" ++ safeName ++ "\" 2>nul"
  else
    "pkill -x \"" ++ safeName ++ "\" || pkill \"" ++ safeName ++ "\""

/-- An entry of `CommandExecutor.history` (command-executor.js:498-505). -/
structure AuditRecord where
  timestamp : String
  type : String
  command : String
  success : Bool
  error : Option String
  deriving DecidableEq

/-- `CommandExecutor.logCommand` (command-executor.js:498-511): push the record,
then `if (this.history.length > 100) this.history = this.history.slice(-100)`. -/
def logCommand (history : List AuditRecord) (r : AuditRecord) : List AuditRecord :=
  let h := history ++ [r]
  if h.length > 100 then h.drop (h.length - 100) else h

end CommandExecutor

namespace SolutionEngine

/-- A `solution` object as consumed by `SolutionEngine.execute`.  `type?` is
`none` when the `type` field is absent (`undefined`); the remaining fields are
carried for the handlers. -/
structure Solution where
  type? : Option String
  pid : Option Nat
  processName : Option String
  cacheType : Option String
  serviceName : Option String
  action : Option String
  deriving DecidableEq

/-- The declared-type blocklist of `SolutionEngine.isSafe` (solutions.js:91-96). -/
def dangerousTypes : List String :=
  ["delete-system-file", "modify-registry", "format-drive", "disable-security"]

/-- `SolutionEngine.isSafe` (solutions.js:90-99):
`!dangerousTypes.includes(solution.type)`; `includes(undefined)` is `false`. -/
def isSafe (sol : Solution) : Bool :=
  !(dangerousTypes.contains (sol.type?.getD ""))

/-- An entry of `SolutionEngine.auditLog` (solutions.js:439-446). -/
structure AuditEntry where
  timestamp : String
  action : String
  details : Option Solution
  platform : String
  deriving DecidableEq

/-- `SolutionEngine.log` (solutions.js:439-446): `this.auditLog.push({...})` —
no capacity bound of any kind. -/
def log (auditLog : List AuditEntry) (e : AuditEntry) : List AuditEntry :=
  auditLog ++ [e]

/-- Control outcome of `SolutionEngine.execute`: the thrown
`'Invalid solution provided'` error, the safety refusal
`{ success: false, error: ..., requiresApproval: true }`, transfer to a handler
method of the `switch`, or the `default` unknown-type result. -/
inductive ExecuteOutcome where
  | thrown (message : String)
  | refused (error : String) (requiresApproval : Bool)
  | handler (name : String)
  | unknownType (error : String)
  deriving DecidableEq

/-- The `switch (solution.type)` of `SolutionEngine.execute` (solutions.js:35-77),
mapping each case to the handler method it awaits (the `suggest-diagnostics`
case returns its literal result inline). -/
def executeSwitch (t : String) : ExecuteOutcome :=
  match t with
  | "kill-process" => ExecuteOutcome.handler "killProcess"
  | "clear-cache" => ExecuteOutcome.handler "clearCache"
  | "flush-dns" => ExecuteOutcome.handler "flushDNS"
  | "suggest-restart" => ExecuteOutcome.handler "suggestRestart"
  | "suggest-close-app" => ExecuteOutcome.handler "suggestCloseApp"
  | "suggest-cleanup" => ExecuteOutcome.handler "diskCleanup"
  | "suggest-diagnostics" => ExecuteOutcome.handler "suggestDiagnosticsInline"
  | "restart-service" => ExecuteOutcome.handler "restartService"
  | "optimize-startup" => ExecuteOutcome.handler "optimizeStartup"
  | "disk-cleanup" => ExecuteOutcome.handler "diskCleanup"
  | "fix-network" => ExecuteOutcome.handler "fixNetwork"
  | "empty-trash" => ExecuteOutcome.handler "emptyTrash"
  | _ => ExecuteOutcome.unknownType ("Unknown solution type: " ++ t)

/-- `SolutionEngine.execute` (solutions.js:16-85) up to handler dispatch,
together with the audit entries it appends during the call.  `!solution` is
`sol? = none`; `!solution.type` is an absent or empty `type`.  The validation
throw and the `isSafe` refusal both happen before `this.log('execute', ...)`,
so those paths append nothing.  `now` models `new Date().toISOString()`. -/
def execute (platform now : String) (sol? : Option Solution) :
    ExecuteOutcome × List AuditEntry :=
  match sol? with
  | none => (ExecuteOutcome.thrown "Invalid solution provided", [])
  | some sol =>
    match sol.type? with
    | none => (ExecuteOutcome.thrown "Invalid solution provided", [])
    | some t =>
      if t = "" then
        (ExecuteOutcome.thrown "Invalid solution provided", [])
      else if isSafe sol = false then
        (ExecuteOutcome.refused "This action requires additional approval due to safety concerns" true, [])
      else
        (executeSwitch t, [{ timestamp := now, action := "execute", details := some sol, platform := platform }])

end SolutionEngine

namespace Renderer

/-- The fixed head of an action tag: the characters of `[ACTION:`. -/
def actionHeader : List Char :=
  ['[', 'A', 'C', 'T', 'I', 'O', 'N', ':']

/-- JavaScript's `\w` class: `[A-Za-z0-9_]`. -/
def isWordChar (c : Char) : Bool :=
  (Char.ofNat 97 ≤ c && c ≤ Char.ofNat 122) ||
  (Char.ofNat 65 ≤ c && c ≤ Char.ofNat 90) ||
  (Char.ofNat 48 ≤ c && c ≤ Char.ofNat 57) || c == '_'

/-- The global matches of `/\[ACTION:\s*([^\]]+)\]/g` over `cs`
(renderer.js:942,950), as `(full match, group 1 widened to everything between
`[ACTION:` and the closing `]`)` pairs in match order.  A full match runs from
an occurrence of `[ACTION:` to the first following `]`, and needs at least one
character in between; on a failed candidate the scan advances one character,
exactly as the regex engine does.  Group 1 proper excludes the whitespace
matched by `\s*`, but the parameter scan is insensitive to that framing
whitespace (`\w` and `"` are not `\s`), so the widened content is used.
`fuel` bounds the recursion; `scanBlocks` supplies `cs.length`, which is always
sufficient because every step strictly shortens the list. -/
def scanBlocksAux : Nat → List Char → List (List Char × List Char)
  | 0, _ => []
  | fuel + 1, cs =>
    if actionHeader.isPrefixOf cs then
      let rest := cs.drop actionHeader.length
      let content := rest.takeWhile (fun c => c ≠ ']')
      match rest.drop content.length with
      | ']' :: rest2 =>
        if content.isEmpty then
          scanBlocksAux fuel cs.tail
        else
          (actionHeader ++ content ++ [']'], content) :: scanBlocksAux fuel rest2
      | _ => []
    else
      match cs with
      | [] => []
      | _ :: cs2 => scanBlocksAux fuel cs2

/-- Action-tag matches of a character list (see `scanBlocksAux`). -/
def scanBlocks (cs : List Char) : List (List Char × List Char) :=
  scanBlocksAux cs.length cs

/-- The global matches of `/(\w+)="([^"]+)"/g` over a tag's content
(renderer.js:944,956), as `(key, value)` pairs in match order.  A match is a
maximal `\w`-run followed by `="`, a non-empty run of non-quote characters, and
the closing quote; a failed candidate advances the scan one character. -/
def scanParamsAux : Nat → List Char → List (String × String)
  | 0, _ => []
  | fuel + 1, cs =>
    let w := cs.takeWhile isWordChar
    if w.isEmpty then
      match cs with
      | [] => []
      | _ :: cs2 => scanParamsAux fuel cs2
    else
      match cs.drop w.length with
      | '=' :: '"' :: rest =>
        let v := rest.takeWhile (fun c => c ≠ '"')
        if v.isEmpty then
          scanParamsAux fuel cs.tail
        else
          match rest.drop v.length with
          | '"' :: rest2 => (String.mk w, String.mk v) :: scanParamsAux fuel rest2
          | _ => scanParamsAux fuel cs.tail
      | _ => scanParamsAux fuel cs.tail

/-- Parameter matches of a tag content (see `scanParamsAux`). -/
def scanParams (cs : List Char) : List (String × String) :=
  scanParamsAux cs.length cs

/-- An `action` object built by `parseAIResponse`: its `key="value"` matches in
order.  JavaScript object semantics (`action[key] = value`, later assignments
win) are recovered by `jsGet`. -/
abbrev JsAction : Type :=
  List (String × String)

/-- Property read on a parsed action object: the value of the last `key="value"`
pair for `k`, or `none` when the field is absent (`undefined`). -/
def jsGet (a : JsAction) (k : String) : Option String :=
  (a.reverse.find? (fun p => p.1 == k)).map (fun p => p.2)

/-- `action.type` is truthy: every parsed value is non-empty, so this is
exactly "some pair has key `type`" (renderer.js:960). -/
def hasTypeKey (ps : JsAction) : Bool :=
  ps.any (fun p => p.1 == "type")

/-- `text.replace(matched, '')` with a plain-string pattern: remove the first
occurrence of `pat`, or return `cs` unchanged when there is none. -/
def replaceFirst (cs pat : List Char) : List Char :=
  if pat.isPrefixOf cs then cs.drop pat.length
  else
    match cs with
    | [] => []
    | c :: cs2 => c :: replaceFirst cs2 pat

/-- `String.prototype.trim`, over the whitespace class `isJsWs`. -/
def trimChars (cs : List Char) : List Char :=
  ((cs.dropWhile isJsWs).reverse.dropWhile isJsWs).reverse

/-- `parseAIResponse` (renderer.js:940-969): collect the `[ACTION: ...]`
matches; keep, per match, the parameter object when it carries a `type` key;
remove each matched substring from the displayed text with
`text.replace(blockMatch[0], '')`; and return the `trim`med text. -/
def parseAIResponse (s : String) : String × List JsAction :=
  let cs := s.data
  let blocks := scanBlocks cs
  let actions := blocks.filterMap (fun b =>
    let ps := scanParams b.2
    if hasTypeKey ps then some ps else none)
  let text := blocks.foldl (fun t b => replaceFirst t b.1) cs
  (String.mk (trimChars text), actions)

/-- The display text before the final `trim`: the input with one occurrence of
each matched tag substring removed. -/
def preTrimText (s : String) : List Char :=
  (scanBlocks s.data).foldl (fun t b => replaceFirst t b.1) s.data

/-- Total length of the matched tag substrings of `s`. -/
def matchLenSum (s : String) : Nat :=
  (((scanBlocks s.data).map Prod.fst).map List.length).sum

/-- `pat` occurs as a contiguous substring of `w`. -/
def OccursIn (pat w : List Char) : Prop :=
  ∃ a b, w = a ++ pat ++ b

/-- The number of matched action tags of `s` that carry a `type` key — the
tags `parseAIResponse` keeps as actions. -/
def typedTagCount (s : String) : Nat :=
  ((scanBlocks s.data).filter (fun b => hasTypeKey (scanParams b.2))).length

/-- `a.type === 'query-system' && a.queryType` (renderer.js:262,310): the
filter selecting auto-executable query actions. -/
def isAutoQueryAction (a : JsAction) : Bool :=
  jsGet a "type" == some "query-system" &&
    (match jsGet a "queryType" with
     | some v => !v.isEmpty
     | none => false)

/-- `a.type === 'run-deep-scan'` (renderer.js:311). -/
def isDeepScanAction (a : JsAction) : Bool :=
  jsGet a "type" == some "run-deep-scan"

/-- The auto-dispatch loop of `sendMessage` (renderer.js:260-265): every action
with `type === 'query-system'` and a truthy `queryType` is executed via
`executeQueryAction`, in order. -/
def sendMessageAutoDispatches (actions : List JsAction) : List JsAction :=
  actions.filter isAutoQueryAction

/-- A command dispatch performed by the agentic loop: `runSafeCommand` for the
chosen query action, or `runDeepScan`. -/
inductive Dispatch where
  | query (a : JsAction)
  | deepScan
  deriving DecidableEq

/-- How an agentic loop run ends: the fixed summary-and-stop message at the
step cap, or conclusion because a response carried no auto-executable action. -/
inductive LoopEnd where
  | summaryStop
  | concluded
  deriving DecidableEq

/-- `MAX_AGENTIC_STEPS` (renderer.js:279). -/
def MAX_AGENTIC_STEPS : Nat := 10

/-- The dispatches of one `processSystemMessage` step on a parsed response
(renderer.js:310-324): the first `query-system` action if any, else a deep
scan if requested, else nothing. -/
def stepDispatches (actions : List JsAction) : List Dispatch :=
  match actions.filter isAutoQueryAction with
  | a :: _ => [Dispatch.query a]
  | [] =>
    match actions.filter isDeepScanAction with
    | _ :: _ => [Dispatch.deepScan]
    | [] => []

/-- The agentic loop `processSystemMessage` / `executeQueryActionAgentic` /
`executeDeepScan` (renderer.js:278-385,618-689), abstracted over the reasoning
backend: `resp k` is the parsed action list of the response consumed by the
step at `stepCount = k`.  Returns the dispatches the session performs from step
`k` on, and how it ends.  At `stepCount >= MAX_AGENTIC_STEPS` the loop emits
the fixed summary message and stops; otherwise it dispatches
`queryActions[0]` (or a deep scan) and continues at `stepCount + 1`. -/
def processSystemMessage (resp : Nat → List JsAction) (stepCount : Nat) :
    List Dispatch × LoopEnd :=
  if _h : MAX_AGENTIC_STEPS ≤ stepCount then
    ([], LoopEnd.summaryStop)
  else
    let actions := resp stepCount
    let queryActions := actions.filter isAutoQueryAction
    let deepScanActions := actions.filter isDeepScanAction
    match queryActions with
    | a :: _ =>
      let c := processSystemMessage resp (stepCount + 1)
      (Dispatch.query a :: c.1, c.2)
    | [] =>
      match deepScanActions with
      | _ :: _ =>
        let c := processSystemMessage resp (stepCount + 1)
        (Dispatch.deepScan :: c.1, c.2)
      | [] => ([], LoopEnd.concluded)
  termination_by MAX_AGENTIC_STEPS - stepCount
  decreasing_by
    all_goals simp only [MAX_AGENTIC_STEPS] at *
    all_goals omega

/-- `result` of `window.relay.runSafeCommand` as consumed by
`executeQueryActionAgentic`; an empty `output`/`error` models an absent
(falsy) field. -/
structure QueryResult where
  success : Bool
  output : String
  error : String
  deriving DecidableEq

/-- `s.substring(0, n)`. -/
def strTake (s : String) (n : Nat) : String :=
  String.mk (s.data.take n)

/-- The `[SYSTEM_RESULT: ...]` text block constructed by
`executeQueryActionAgentic` (renderer.js:355-379): on success with output the
output is truncated with `substring(0, 1500)`; otherwise the error, or the
fixed `No data returned` text, is embedded. -/
def systemResultMessage (queryType : String) (r : QueryResult) : String :=
  if r.success && !r.output.isEmpty then
    "[SYSTEM_RESULT: queryType=\"" ++ queryType ++ "\" output=\"" ++
      strTake r.output 1500 ++ "\"]"
  else if !r.error.isEmpty then
    "[SYSTEM_RESULT: queryType=\"" ++ queryType ++ "\" error=\"" ++ r.error ++ "\"]"
  else
    "[SYSTEM_RESULT: queryType=\"" ++ queryType ++ "\" output=\"No data returned\"]"

end Renderer

/-! ## Supporting lemmas -/

/-- One `SolutionEngine.log` append grows the audit list by exactly one entry:
there is no eviction in `SolutionEngine.log`. -/
theorem SolutionEngine.length_log (auditLog : List SolutionEngine.AuditEntry)
    (e : SolutionEngine.AuditEntry) :
    (SolutionEngine.log auditLog e).length = auditLog.length + 1 := by
  simp [SolutionEngine.log]

/-- `CommandExecutor.logCommand`, folded from an empty history, keeps exactly
the trailing 100-record window of the appended records. -/
theorem CommandExecutor.foldl_logCommand_eq_drop
    (records : List CommandExecutor.AuditRecord) :
    records.foldl CommandExecutor.logCommand [] =
      records.drop (records.length - 100) := by
  induction records using List.reverseRecOn with
  | nil => simp
  | append_singleton rs r ih =>
    rw [List.foldl_append, List.foldl_cons, List.foldl_nil, ih]
    unfold CommandExecutor.logCommand
    by_cases hn : rs.length ≤ 100
    · have h0 : rs.length - 100 = 0 := by omega
      simp only [h0, List.drop_zero, List.length_append, List.length_singleton]
      by_cases hn' : rs.length + 1 > 100
      · have h100 : rs.length = 100 := by omega
        simp [h100]
      · simp only [if_neg hn']
        have : rs.length + 1 - 100 = 0 := by omega
        simp [this]
    · have hlen : (rs.drop (rs.length - 100)).length = 100 := by
        simp [List.length_drop]; omega
      have hcond : (rs.drop (rs.length - 100) ++ [r]).length > 100 := by
        simp [hlen]
      simp only [if_pos hcond]
      rw [List.length_append, hlen]
      have hone : 100 + [r].length - 100 = 1 := by simp
      rw [hone]
      rw [List.drop_append_of_le_length (by omega : 1 ≤ (rs.drop (rs.length - 100)).length)]
      rw [List.drop_drop]
      rw [List.length_append, List.length_singleton,
        List.drop_append_of_le_length (show rs.length + 1 - 100 ≤ rs.length by omega)]
      congr 2
      omega

/-- `replaceFirst` when the pattern is a prefix: drop it. -/
theorem Renderer.replaceFirst_pos (cs pat : List Char) (h : pat.isPrefixOf cs) :
    Renderer.replaceFirst cs pat = cs.drop pat.length := by
  unfold Renderer.replaceFirst
  rw [if_pos h]

/-- `replaceFirst` stepping over a head the pattern does not match at. -/
theorem Renderer.replaceFirst_neg_cons (c : Char) (cs2 pat : List Char)
    (h : ¬ pat.isPrefixOf (c :: cs2)) :
    Renderer.replaceFirst (c :: cs2) pat = c :: Renderer.replaceFirst cs2 pat := by
  conv_lhs => rw [Renderer.replaceFirst]
  rw [if_neg h]

/-- Dropping the length of the `takeWhile` prefix is `dropWhile`. -/
theorem Renderer.drop_length_takeWhile (p : Char → Bool) :
    ∀ l : List Char, l.drop (l.takeWhile p).length = l.dropWhile p := by
  intro l
  induction l with
  | nil => rfl
  | cons c tl ih =>
    by_cases h : p c
    · simpa [List.takeWhile_cons, List.dropWhile_cons, h] using ih
    · simp [List.takeWhile_cons, List.dropWhile_cons, h]

/-- When `pat` occurs inside `w`, removing its first occurrence from `w ++ rest`
removes it inside `w` — leaving `rest` intact — and shortens `w` by exactly
`pat.length`. -/
theorem Renderer.replaceFirst_append_of_occursIn :
    ∀ (w pat rest : List Char), Renderer.OccursIn pat w →
      Renderer.replaceFirst (w ++ rest) pat = Renderer.replaceFirst w pat ++ rest ∧
      (Renderer.replaceFirst w pat).length + pat.length = w.length := by
  intro w
  induction w with
  | nil =>
    intro pat rest h
    obtain ⟨a, b, hab⟩ := h
    have hpat : pat = [] := by
      have hl := congrArg List.length hab
      simp at hl
      exact List.eq_nil_of_length_eq_zero (by omega)
    subst hpat
    constructor
    · rw [Renderer.replaceFirst_pos _ _ (by simp [List.isPrefixOf]),
        Renderer.replaceFirst_pos _ _ (by simp [List.isPrefixOf])]
      simp
    · simp [Renderer.replaceFirst_pos _ _ (by simp [List.isPrefixOf] :
        List.isPrefixOf [] ([] : List Char))]
  | cons c w2 ih =>
    intro pat rest h
    by_cases hp : pat.isPrefixOf (c :: w2)
    · have hpre : pat <+: (c :: w2) := List.isPrefixOf_iff_prefix.mp hp
      have hle : pat.length ≤ (c :: w2).length := hpre.length_le
      have hp2 : pat.isPrefixOf ((c :: w2) ++ rest) :=
        List.isPrefixOf_iff_prefix.mpr (hpre.trans (List.prefix_append _ _))
      constructor
      · rw [Renderer.replaceFirst_pos _ _ hp2, Renderer.replaceFirst_pos _ _ hp,
          List.drop_append_of_le_length hle]
      · rw [Renderer.replaceFirst_pos _ _ hp, List.length_drop]
        omega
    · obtain ⟨a, b, hab⟩ := h
      cases a with
      | nil =>
        exact absurd (List.isPrefixOf_iff_prefix.mpr ⟨b, by simpa using hab.symm⟩) hp
      | cons a0 a2 =>
        simp only [List.cons_append] at hab
        obtain ⟨hca, hw2⟩ := List.cons_eq_cons.mp hab
        have hocc2 : Renderer.OccursIn pat w2 := ⟨a2, b, hw2⟩
        have hple : pat.length ≤ w2.length := by
          rw [hw2]; simp; omega
        have hp' : ¬ pat.isPrefixOf ((c :: w2) ++ rest) := by
          intro hcontra
          apply hp
          rw [List.isPrefixOf_iff_prefix, List.prefix_iff_eq_take] at hcontra ⊢
          conv_lhs => rw [hcontra]
          exact List.take_append_of_le_length (by simp; omega)
        have hstep := ih pat rest hocc2
        constructor
        · rw [List.cons_append,
            Renderer.replaceFirst_neg_cons c (w2 ++ rest) pat hp',
            Renderer.replaceFirst_neg_cons c w2 pat hp, hstep.1, List.cons_append]
        · rw [Renderer.replaceFirst_neg_cons _ _ _ hp]
          simp only [List.length_cons]
          omega

/-- `filterMap` with an `if p then some (g x) else none` body keeps as many
elements as `filter p`. -/
theorem Renderer.length_filterMap_ite {α β : Type} (p : α → Bool) (g : α → β) :
    ∀ l : List α,
      (l.filterMap (fun x => if p x then some (g x) else none)).length =
        (l.filter p).length := by
  intro l
  induction l with
  | nil => rfl
  | cons x xs ih =>
    by_cases h : p x <;> simp [List.filterMap_cons, List.filter_cons, h, ih]

/-- Removal accounting for the action-tag match list: folding
`text.replace(match, '')` over the matches of `cs`, starting from any text
`u ++ cs` whose suffix `cs` is the region still being scanned, removes exactly
the matched characters.  `fuel` dominates `cs.length` as in `scanBlocks`. -/
theorem Renderer.foldl_replaceFirst_scanBlocksAux :
    ∀ (fuel : Nat) (cs u : List Char), cs.length ≤ fuel →
      (((Renderer.scanBlocksAux fuel cs).map Prod.fst).foldl
          Renderer.replaceFirst (u ++ cs)).length +
        (((Renderer.scanBlocksAux fuel cs).map Prod.fst).map List.length).sum =
      u.length + cs.length := by
  intro fuel
  induction fuel with
  | zero =>
    intro cs u hle
    have : cs = [] := List.eq_nil_of_length_eq_zero (Nat.le_zero.mp hle)
    subst this
    simp [Renderer.scanBlocksAux]
  | succ fuel ih =>
    intro cs u hle
    by_cases hp : Renderer.actionHeader.isPrefixOf cs
    · -- cs starts with `[ACTION:`
      have hcs : cs = Renderer.actionHeader ++ cs.drop Renderer.actionHeader.length := by
        conv_lhs => rw [← List.take_append_drop Renderer.actionHeader.length cs]
        rw [← List.prefix_iff_eq_take.mp (List.isPrefixOf_iff_prefix.mp hp)]
      have hsplit : cs.drop Renderer.actionHeader.length =
          ((cs.drop Renderer.actionHeader.length).takeWhile (fun c => c ≠ ']')) ++
            ((cs.drop Renderer.actionHeader.length).drop
              ((cs.drop Renderer.actionHeader.length).takeWhile (fun c => c ≠ ']')).length) := by
        rw [Renderer.drop_length_takeWhile,
          List.takeWhile_append_dropWhile (fun c => decide (c ≠ ']'))
            (cs.drop Renderer.actionHeader.length)]
      cases hd : (cs.drop Renderer.actionHeader.length).drop
          ((cs.drop Renderer.actionHeader.length).takeWhile (fun c => c ≠ ']')).length with
      | nil =>
        have hscan : Renderer.scanBlocksAux (fuel + 1) cs = [] := by
          simp only [Renderer.scanBlocksAux, if_pos hp, hd]
        simp [hscan]
      | cons x rest2 =>
        by_cases hx : x = ']'
        · subst hx
          by_cases hce :
              ((cs.drop Renderer.actionHeader.length).takeWhile (fun c => c ≠ ']')).isEmpty
          · -- empty content: the candidate fails; the scan advances one character
            obtain ⟨c0, cs2, hc⟩ : ∃ c0 cs2, cs = c0 :: cs2 := by
              cases cs with
              | nil => simp [Renderer.actionHeader, List.isPrefixOf] at hp
              | cons c0 cs2 => exact ⟨c0, cs2, rfl⟩
            have hscan : Renderer.scanBlocksAux (fuel + 1) cs =
                Renderer.scanBlocksAux fuel cs.tail := by
              simp only [Renderer.scanBlocksAux, if_pos hp, hd, if_pos hce]
            have hlen2 : cs2.length ≤ fuel := by
              have := hle
              rw [hc] at this
              simpa using this
            have hthis := ih cs2 (u ++ [c0]) hlen2
            have harr : u ++ c0 :: cs2 = (u ++ [c0]) ++ cs2 := by simp
            rw [hscan, hc, List.tail_cons, harr, hthis]
            simp only [List.length_append, List.length_cons, List.length_singleton,
              List.length_nil]
            omega
          · -- a real match: peel it off and recurse after the closing bracket
            have hscan : Renderer.scanBlocksAux (fuel + 1) cs =
                (Renderer.actionHeader ++
                    ((cs.drop Renderer.actionHeader.length).takeWhile (fun c => c ≠ ']')) ++ [']'],
                  (cs.drop Renderer.actionHeader.length).takeWhile (fun c => c ≠ ']')) ::
                  Renderer.scanBlocksAux fuel rest2 := by
              simp only [Renderer.scanBlocksAux, if_pos hp, hd, if_neg hce]
            have hcs2 : cs = (Renderer.actionHeader ++
                ((cs.drop Renderer.actionHeader.length).takeWhile (fun c => c ≠ ']')) ++ [']']) ++
                rest2 := by
              conv_lhs => rw [hcs]
              conv_lhs => rw [hsplit]
              rw [hd]
              simp
            have hocc : Renderer.OccursIn
                (Renderer.actionHeader ++
                  ((cs.drop Renderer.actionHeader.length).takeWhile (fun c => c ≠ ']')) ++ [']'])
                (u ++ (Renderer.actionHeader ++
                  ((cs.drop Renderer.actionHeader.length).takeWhile (fun c => c ≠ ']')) ++ [']'])) :=
              ⟨u, [], by simp⟩
            have hrf := Renderer.replaceFirst_append_of_occursIn
              (u ++ (Renderer.actionHeader ++
                ((cs.drop Renderer.actionHeader.length).takeWhile (fun c => c ≠ ']')) ++ [']']))
              (Renderer.actionHeader ++
                ((cs.drop Renderer.actionHeader.length).takeWhile (fun c => c ≠ ']')) ++ [']'])
              rest2 hocc
            have hlen2 : rest2.length ≤ fuel := by
              have hl := congrArg List.length hcs2
              simp at hl
              omega
            have hihx := ih rest2
              (Renderer.replaceFirst
                (u ++ (Renderer.actionHeader ++
                  ((cs.drop Renderer.actionHeader.length).takeWhile (fun c => c ≠ ']')) ++ [']']))
                (Renderer.actionHeader ++
                  ((cs.drop Renderer.actionHeader.length).takeWhile (fun c => c ≠ ']')) ++ [']']))
              hlen2
            rw [hscan]
            simp only [List.map_cons, List.foldl_cons, List.sum_cons]
            have harr2 : u ++ cs = (u ++ (Renderer.actionHeader ++
                ((cs.drop Renderer.actionHeader.length).takeWhile (fun c => c ≠ ']')) ++ [']'])) ++
                rest2 := by
              conv_lhs => rw [hcs2]
              simp
            rw [harr2, hrf.1]
            have hlcs := congrArg List.length hcs2
            have hul := hrf.2
            simp only [List.length_append, List.length_cons, List.length_singleton,
              List.length_nil] at hlcs hul ⊢
            omega
        · -- head of the post-content region is not `]` (dead branch of the match)
          have hscan : Renderer.scanBlocksAux (fuel + 1) cs = [] := by
            simp only [Renderer.scanBlocksAux, if_pos hp, hd]
            split
            · rename_i heq
              exact absurd (List.cons_eq_cons.mp heq).1 hx
            · rfl
          simp [hscan]
    · -- no tag at this position: advance one character
      cases cs with
      | nil =>
        simp [Renderer.scanBlocksAux, hp]
      | cons c0 cs2 =>
        have hscan : Renderer.scanBlocksAux (fuel + 1) (c0 :: cs2) =
            Renderer.scanBlocksAux fuel cs2 := by
          simp only [Renderer.scanBlocksAux, if_neg hp]
        have hlen2 : cs2.length ≤ fuel := by
          simpa using hle
        have hthis := ih cs2 (u ++ [c0]) hlen2
        have harr : u ++ c0 :: cs2 = (u ++ [c0]) ++ cs2 := by simp
        rw [hscan, harr, hthis]
        simp only [List.length_append, List.length_cons, List.length_singleton,
          List.length_nil]
        omega

/-- Unfolding of the agentic loop at the step cap: summary-and-stop, no
dispatch. -/
theorem Renderer.processSystemMessage_stop (resp : Nat → List Renderer.JsAction) (k : Nat)
    (h : Renderer.MAX_AGENTIC_STEPS ≤ k) :
    Renderer.processSystemMessage resp k = ([], Renderer.LoopEnd.summaryStop) := by
  rw [Renderer.processSystemMessage]
  rw [dif_pos h]

/-- Unfolding of the agentic loop below the cap when the response carries a
query action: dispatch `queryActions[0]` and continue at `stepCount + 1`. -/
theorem Renderer.processSystemMessage_step_query (resp : Nat → List Renderer.JsAction)
    (k : Nat) (a : Renderer.JsAction) (qs : List Renderer.JsAction)
    (hk : ¬ Renderer.MAX_AGENTIC_STEPS ≤ k)
    (hq : (resp k).filter Renderer.isAutoQueryAction = a :: qs) :
    Renderer.processSystemMessage resp k =
      (Renderer.Dispatch.query a :: (Renderer.processSystemMessage resp (k + 1)).1,
        (Renderer.processSystemMessage resp (k + 1)).2) := by
  rw [Renderer.processSystemMessage]
  rw [dif_neg hk]
  simp only [hq]

/-- Unfolding of the agentic loop below the cap when the response carries no
query action but requests a deep scan. -/
theorem Renderer.processSystemMessage_step_deep (resp : Nat → List Renderer.JsAction)
    (k : Nat) (d : Renderer.JsAction) (ds : List Renderer.JsAction)
    (hk : ¬ Renderer.MAX_AGENTIC_STEPS ≤ k)
    (hq : (resp k).filter Renderer.isAutoQueryAction = [])
    (hd : (resp k).filter Renderer.isDeepScanAction = d :: ds) :
    Renderer.processSystemMessage resp k =
      (Renderer.Dispatch.deepScan :: (Renderer.processSystemMessage resp (k + 1)).1,
        (Renderer.processSystemMessage resp (k + 1)).2) := by
  rw [Renderer.processSystemMessage]
  rw [dif_neg hk]
  simp only [hq, hd]

/-- Unfolding of the agentic loop below the cap when the response carries no
auto-executable action: the loop concludes without dispatching. -/
theorem Renderer.processSystemMessage_concluded (resp : Nat → List Renderer.JsAction)
    (k : Nat)
    (hk : ¬ Renderer.MAX_AGENTIC_STEPS ≤ k)
    (hq : (resp k).filter Renderer.isAutoQueryAction = [])
    (hd : (resp k).filter Renderer.isDeepScanAction = []) :
    Renderer.processSystemMessage resp k = ([], Renderer.LoopEnd.concluded) := by
  rw [Renderer.processSystemMessage]
  rw [dif_neg hk]
  simp only [hq, hd]

/-- With action-bearing responses at every step, a run from `stepCount = k`
(`k + j = MAX_AGENTIC_STEPS`) performs exactly `j` dispatches and ends with the
summary-and-stop message. -/
theorem Renderer.processSystemMessage_full_run :
    ∀ (j k : Nat) (resp : Nat → List Renderer.JsAction),
      k + j = Renderer.MAX_AGENTIC_STEPS →
      (∀ n, (resp n).filter Renderer.isAutoQueryAction ≠ []) →
      (Renderer.processSystemMessage resp k).1.length = j ∧
      (Renderer.processSystemMessage resp k).2 = Renderer.LoopEnd.summaryStop := by
  intro j
  induction j with
  | zero =>
    intro k resp hk hresp
    rw [Renderer.processSystemMessage_stop resp k (by omega)]
    exact ⟨rfl, rfl⟩
  | succ j ih =>
    intro k resp hk hresp
    cases hq : (resp k).filter Renderer.isAutoQueryAction with
    | nil => exact absurd hq (hresp k)
    | cons a qs =>
      rw [Renderer.processSystemMessage_step_query resp k a qs
        (by simp only [Renderer.MAX_AGENTIC_STEPS] at hk ⊢; omega) hq]
      have := ih (k + 1) resp (by omega) hresp
      exact ⟨by simpa using this.1, this.2⟩

/-- A run from `stepCount = k` performs at most `MAX_AGENTIC_STEPS - k`
dispatches, whatever the responses. -/
theorem Renderer.processSystemMessage_dispatch_bound :
    ∀ (j k : Nat) (resp : Nat → List Renderer.JsAction),
      Renderer.MAX_AGENTIC_STEPS - k ≤ j →
      (Renderer.processSystemMessage resp k).1.length ≤
        Renderer.MAX_AGENTIC_STEPS - k := by
  intro j
  induction j with
  | zero =>
    intro k resp hj
    rw [Renderer.processSystemMessage_stop resp k (by omega)]
    simp
  | succ j ih =>
    intro k resp hj
    by_cases hk : Renderer.MAX_AGENTIC_STEPS ≤ k
    · rw [Renderer.processSystemMessage_stop resp k hk]
      simp
    · have hk' : k < Renderer.MAX_AGENTIC_STEPS := by omega
      have hih := ih (k + 1) resp (by omega)
      cases hq : (resp k).filter Renderer.isAutoQueryAction with
      | cons a qs =>
        rw [Renderer.processSystemMessage_step_query resp k a qs hk hq]
        simp only [List.length_cons]
        omega
      | nil =>
        cases hd : (resp k).filter Renderer.isDeepScanAction with
        | cons d ds =>
          rw [Renderer.processSystemMessage_step_deep resp k d ds hk hq hd]
          simp only [List.length_cons]
          omega
        | nil =>
          rw [Renderer.processSystemMessage_concluded resp k hk hq hd]
          simp

/-! ## Claim theorems -/

/-- **C1.** Any raw command string matching one of the fixed case-insensitive
dangerous-pattern regexes makes `runCustomCommand` return the blocked failure
result (`blocked: true`, security-reason message) without handing the command
to `execAsync`, and the verdict does not depend on the platform value. -/
theorem runCustomCommand_blocks_dangerous_C1 :
    ∀ (platform command : String),
      CommandExecutor.isDangerous command = true →
      CommandExecutor.runCustomCommand platform command =
        CommandExecutor.CustomCmdOutcome.blocked
          "This command is not allowed for security reasons." ∧
      (∀ c t b, CommandExecutor.runCustomCommand platform command ≠
        CommandExecutor.CustomCmdOutcome.executed c t b) ∧
      (∀ platform2 : String, CommandExecutor.runCustomCommand platform2 command =
        CommandExecutor.runCustomCommand platform command) := by
  intro p command h
  refine ⟨?_, ?_, ?_⟩
  · simp [CommandExecutor.runCustomCommand, h]
  · intro c t b
    simp [CommandExecutor.runCustomCommand, h]
  · intro p2
    simp [CommandExecutor.runCustomCommand]

/-- Witness for C1: the spec's three example commands all match the pattern
blocklist, and `"sudo rm -rf /"` is blocked. -/
theorem runCustomCommand_blocks_dangerous_C1_witness :
    CommandExecutor.isDangerous "sudo rm -rf /" = true ∧
    CommandExecutor.isDangerous "format C:" = true ∧
    CommandExecutor.isDangerous "shutdown -r now" = true ∧
    CommandExecutor.runCustomCommand "linux" "sudo rm -rf /" =
      CommandExecutor.CustomCmdOutcome.blocked
        "This command is not allowed for security reasons." :=
  ⟨by decide, by decide, by decide,
    (runCustomCommand_blocks_dangerous_C1 "linux" "sudo rm -rf /" (by decide)).1⟩

/-- **C2.** A solution whose declared type is on the fixed blocklist
(`delete-system-file`, `modify-registry`, `format-drive`, `disable-security`)
is refused by `execute` unconditionally — whatever its other fields, so no
constructed command text is ever built — and is never dispatched to a handler;
the refusal result carries `requiresApproval: true`, but re-submission passes
through the same `isSafe` gate, so no reclassification is possible.  The
refusal happens before `this.log`, so nothing is logged either. -/
theorem execute_blocks_dangerous_types_C2 :
    ∀ (platform now : String) (sol : SolutionEngine.Solution) (t : String),
      sol.type? = some t → t ∈ SolutionEngine.dangerousTypes →
      SolutionEngine.execute platform now (some sol) =
        (SolutionEngine.ExecuteOutcome.refused
          "This action requires additional approval due to safety concerns" true, []) ∧
      (∀ h : String, (SolutionEngine.execute platform now (some sol)).1 ≠
        SolutionEngine.ExecuteOutcome.handler h) := by
  intro p now sol t ht hmem
  have ht' : t ≠ "" := by
    rcases (by simpa [SolutionEngine.dangerousTypes] using hmem :
      t = "delete-system-file" ∨ t = "modify-registry" ∨
      t = "format-drive" ∨ t = "disable-security") with h | h | h | h <;>
      subst h <;> decide
  have hsafe : SolutionEngine.isSafe sol = false := by
    simp [SolutionEngine.isSafe, ht]
    exact hmem
  have hres : SolutionEngine.execute p now (some sol) =
      (SolutionEngine.ExecuteOutcome.refused
        "This action requires additional approval due to safety concerns" true, []) := by
    simp [SolutionEngine.execute, ht, ht', hsafe]
  exact ⟨hres, by intro h; rw [hres]; simp⟩

/-- Witness for C2: a `format-drive` solution is refused and not dispatched,
even though its constructed command text would match no raw pattern. -/
theorem execute_blocks_dangerous_types_C2_witness :
    SolutionEngine.execute "darwin" "2026-01-01T00:00:00.000Z"
      (some { type? := some "format-drive", pid := none, processName := none,
              cacheType := none, serviceName := none, action := none }) =
      (SolutionEngine.ExecuteOutcome.refused
        "This action requires additional approval due to safety concerns" true, []) :=
  (execute_blocks_dangerous_types_C2 "darwin" "2026-01-01T00:00:00.000Z"
    { type? := some "format-drive", pid := none, processName := none,
      cacheType := none, serviceName := none, action := none }
    "format-drive" rfl (by decide)).1

/-- **C3 (counterexample).** On the tag-free input `" x "`, `parseAIResponse`
returns `"x"` — the final `text.trim()` alters the surrounding whitespace — so
the parse does not return the input text unchanged. -/
theorem parseAIResponse_trims_C3_counterexample :
    Renderer.parseAIResponse " x " = ("x", []) ∧ ("x" : String) ≠ " x " := by
  decide

/-- **C3 (amended).** For every input string, `parseAIResponse` returns a
`displayText` equal to the input with one occurrence of each matched
`[ACTION: ...]` tag substring removed — exactly once each, so the length drops
by precisely the total matched length — and the result then trimmed of leading
and trailing whitespace; the `actions` sequence length equals the number of
tags carrying a `type` key; on input with no tag match (malformed or empty
included) it returns the trimmed input with an empty actions sequence; and it
is a total function, so it never throws. -/
theorem parseAIResponse_parse_C3 :
    ∀ s : String,
      (Renderer.parseAIResponse s).1 =
        String.mk (Renderer.trimChars (Renderer.preTrimText s)) ∧
      (Renderer.preTrimText s).length + Renderer.matchLenSum s = s.data.length ∧
      (Renderer.parseAIResponse s).2.length = Renderer.typedTagCount s ∧
      (Renderer.scanBlocks s.data = [] →
        Renderer.parseAIResponse s = (String.mk (Renderer.trimChars s.data), [])) := by
  intro s
  refine ⟨rfl, ?_, ?_, ?_⟩
  · have h := Renderer.foldl_replaceFirst_scanBlocksAux s.data.length s.data []
      (Nat.le_refl _)
    rw [List.nil_append, List.foldl_map] at h
    simpa [Renderer.preTrimText, Renderer.matchLenSum, Renderer.scanBlocks] using h
  · simpa [Renderer.parseAIResponse, Renderer.typedTagCount] using
      Renderer.length_filterMap_ite
        (fun b => Renderer.hasTypeKey (Renderer.scanParams b.2))
        (fun b => Renderer.scanParams b.2) (Renderer.scanBlocks s.data)
  · intro h
    simp [Renderer.parseAIResponse, Renderer.preTrimText, h]

/-- Witness for C3 (amended): the no-match branch at the concrete input
`" x "`. -/
theorem parseAIResponse_parse_C3_witness :
    Renderer.parseAIResponse " x " =
      (String.mk (Renderer.trimChars (" x " : String).data), []) :=
  (parseAIResponse_parse_C3 " x ").2.2.2 (by decide)

/-- **C4 (counterexample).** In the initial `sendMessage` handling of a
response — the first Planning step of a session — every `query-system` action
is auto-dispatched, not only the first: a response with two query tags yields
two dispatches in that step. -/
theorem sendMessage_dispatches_all_C4_counterexample :
    Renderer.sendMessageAutoDispatches
        [[("type", "query-system"), ("queryType", "top-processes")],
         [("type", "query-system"), ("queryType", "disk-usage")]] =
      [[("type", "query-system"), ("queryType", "top-processes")],
       [("type", "query-system"), ("queryType", "disk-usage")]] ∧
    ¬ ((Renderer.sendMessageAutoDispatches
        [[("type", "query-system"), ("queryType", "top-processes")],
         [("type", "query-system"), ("queryType", "disk-usage")]]).length ≤ 1) := by
  decide

/-- **C4 (amended).** In every agentic continuation step
(`processSystemMessage`), at most one action from the response is dispatched:
the first `query-system` action if there is one, else a deep scan, and the
remaining action tags are ignored for that step.  The initial `sendMessage`
handling of a response, however, auto-dispatches every `query-system` action
it carries, not only the first (see the counterexample). -/
theorem agentic_step_single_dispatch_C4 :
    ∀ (actions : List Renderer.JsAction),
      (Renderer.stepDispatches actions).length ≤ 1 ∧
      (∀ (a : Renderer.JsAction) (qs : List Renderer.JsAction),
        actions.filter Renderer.isAutoQueryAction = a :: qs →
        Renderer.stepDispatches actions = [Renderer.Dispatch.query a]) ∧
      (∀ (resp : Nat → List Renderer.JsAction) (k : Nat),
        ¬ Renderer.MAX_AGENTIC_STEPS ≤ k →
        ((resp k).filter Renderer.isAutoQueryAction ≠ [] ∨
          (resp k).filter Renderer.isDeepScanAction ≠ []) →
        (Renderer.processSystemMessage resp k).1 =
          Renderer.stepDispatches (resp k) ++
            (Renderer.processSystemMessage resp (k + 1)).1) := by
  intro actions
  refine ⟨?_, ?_, ?_⟩
  · unfold Renderer.stepDispatches
    cases actions.filter Renderer.isAutoQueryAction with
    | cons a qs => simp
    | nil =>
      cases actions.filter Renderer.isDeepScanAction with
      | cons d ds => simp
      | nil => simp
  · intro a qs hq
    unfold Renderer.stepDispatches
    rw [hq]
  · intro resp k hk hact
    cases hq : (resp k).filter Renderer.isAutoQueryAction with
    | cons a qs =>
      rw [Renderer.processSystemMessage_step_query resp k a qs hk hq]
      unfold Renderer.stepDispatches
      rw [hq]
      rfl
    | nil =>
      cases hd : (resp k).filter Renderer.isDeepScanAction with
      | cons d ds =>
        rw [Renderer.processSystemMessage_step_deep resp k d ds hk hq hd]
        unfold Renderer.stepDispatches
        rw [hq, hd]
        rfl
      | nil =>
        rcases hact with h | h
        · exact absurd hq h
        · exact absurd hd h

/-- Witness for C4 (amended): a single-query response at step 0 dispatches
exactly that query and then continues. -/
theorem agentic_step_single_dispatch_C4_witness :
    Renderer.stepDispatches [[("type", "query-system"), ("queryType", "top-processes")]] =
      [Renderer.Dispatch.query [("type", "query-system"), ("queryType", "top-processes")]] ∧
    (Renderer.processSystemMessage
        (fun _ => [[("type", "query-system"), ("queryType", "top-processes")]]) 0).1 =
      Renderer.stepDispatches [[("type", "query-system"), ("queryType", "top-processes")]] ++
        (Renderer.processSystemMessage
          (fun _ => [[("type", "query-system"), ("queryType", "top-processes")]]) 1).1 :=
  ⟨(agentic_step_single_dispatch_C4
      [[("type", "query-system"), ("queryType", "top-processes")]]).2.1
      [("type", "query-system"), ("queryType", "top-processes")] [] (by decide),
    (agentic_step_single_dispatch_C4
      [[("type", "query-system"), ("queryType", "top-processes")]]).2.2
      (fun _ => [[("type", "query-system"), ("queryType", "top-processes")]]) 0
      (by decide) (Or.inl (by decide))⟩

/-- **C5.** A loop session whose responses each carry a further query action
terminates at `stepCount = MAX_AGENTIC_STEPS = 10`: starting from
`stepCount = 0` it performs exactly 10 dispatches and ends with the fixed
summary-and-stop message; any call at `stepCount ≥ 10` emits the summary
immediately with no dispatch, so `stepCount` values beyond 10 are never
reached; and no run from `stepCount = k` ever performs more than `10 - k`
dispatches — in particular, never an 11th. -/
theorem agentic_loop_max_steps_C5 :
    ∀ (resp : Nat → List Renderer.JsAction),
      (∀ n, (resp n).filter Renderer.isAutoQueryAction ≠ []) →
      (Renderer.processSystemMessage resp 0).1.length = Renderer.MAX_AGENTIC_STEPS ∧
      (Renderer.processSystemMessage resp 0).2 = Renderer.LoopEnd.summaryStop ∧
      (∀ (resp2 : Nat → List Renderer.JsAction) (k : Nat),
        Renderer.MAX_AGENTIC_STEPS ≤ k →
        Renderer.processSystemMessage resp2 k = ([], Renderer.LoopEnd.summaryStop)) ∧
      (∀ (resp2 : Nat → List Renderer.JsAction) (k : Nat),
        (Renderer.processSystemMessage resp2 k).1.length ≤
          Renderer.MAX_AGENTIC_STEPS - k) := by
  intro resp hresp
  have hfull := Renderer.processSystemMessage_full_run Renderer.MAX_AGENTIC_STEPS 0 resp
    (by omega) hresp
  refine ⟨hfull.1, hfull.2, ?_, ?_⟩
  · intro resp2 k hk
    exact Renderer.processSystemMessage_stop resp2 k hk
  · intro resp2 k
    exact Renderer.processSystemMessage_dispatch_bound Renderer.MAX_AGENTIC_STEPS k resp2
      (by omega)

/-- Witness for C5: a backend that always proposes one more query action is
stopped after exactly 10 dispatches with the summary message. -/
theorem agentic_loop_max_steps_C5_witness :
    (Renderer.processSystemMessage
        (fun _ => [[("type", "query-system"), ("queryType", "top-processes")]]) 0).1.length =
      Renderer.MAX_AGENTIC_STEPS ∧
    (Renderer.processSystemMessage
        (fun _ => [[("type", "query-system"), ("queryType", "top-processes")]]) 0).2 =
      Renderer.LoopEnd.summaryStop :=
  ⟨(agentic_loop_max_steps_C5
      (fun _ => [[("type", "query-system"), ("queryType", "top-processes")]])
      (fun n =>
        (by decide : List.filter Renderer.isAutoQueryAction
          [[("type", "query-system"), ("queryType", "top-processes")]] ≠ []))).1,
    (agentic_loop_max_steps_C5
      (fun _ => [[("type", "query-system"), ("queryType", "top-processes")]])
      (fun n =>
        (by decide : List.filter Renderer.isAutoQueryAction
          [[("type", "query-system"), ("queryType", "top-processes")]] ≠ []))).2.1⟩

/-- **C6 (counterexample).** Sanitization of `"Chrome;rm -rf ~"` yields
`"Chromerm -rf "` — the safe class `[a-zA-Z0-9\s\-_.]` keeps whitespace — not
the claimed `"Chromerm-rf"` with spaces removed. -/
theorem sanitize_keeps_spaces_C6_counterexample :
    CommandExecutor.sanitizeProcessName "Chrome;rm -rf ~" = "Chromerm -rf " ∧
    ("Chromerm -rf " : String) ≠ "Chromerm-rf" := by
  decide

/-- **C6 (amended).** For the kill-process action with processName
`"Chrome;rm -rf ~"`, sanitization strips every character outside the safe class
`[a-zA-Z0-9\s\-_.]` (whitespace is inside the class and is kept) before
template substitution — producing the dispatch argument `"Chromerm -rf "`
(semicolon and tilde removed, spaces kept) — rather than rejecting the input
with an error: `killProcessByName` always proceeds to build and dispatch the
command. -/
theorem killProcessByName_sanitizes_C6 :
    ∀ (name : String),
      (∀ c ∈ (CommandExecutor.sanitizeProcessName name).data,
        CommandExecutor.isSafeNameChar c = true) ∧
      CommandExecutor.sanitizeProcessName "Chrome;rm -rf ~" = "Chromerm -rf " ∧
      (∀ platform : String, platform ≠ "win32" →
        CommandExecutor.killProcessByName platform "Chrome;rm -rf ~" =
          "pkill -x \"Chromerm -rf \" || pkill \"Chromerm -rf \"") ∧
      CommandExecutor.killProcessByName "win32" "Chrome;rm -rf ~" =
        "taskkill /F /IM \"Chromerm -rf .exe\" 2>nul || taskkill /F /IM \"Chromerm -rf \" 2>nul" := by
  intro name
  refine ⟨?_, by decide, ?_, by decide⟩
  · intro c hc
    simp only [CommandExecutor.sanitizeProcessName] at hc
    exact (List.mem_filter.mp hc).2
  · intro platform hp
    unfold CommandExecutor.killProcessByName
    rw [if_neg hp]
    decide

/-- Witness for C6 (amended): instantiated at the scenario's input. -/
theorem killProcessByName_sanitizes_C6_witness :
    CommandExecutor.isSafeNameChar 'C' = true ∧
    CommandExecutor.killProcessByName "darwin" "Chrome;rm -rf ~" =
      "pkill -x \"Chromerm -rf \" || pkill \"Chromerm -rf \"" :=
  ⟨(killProcessByName_sanitizes_C6 "Chrome;rm -rf ~").1 'C' (by decide),
    (killProcessByName_sanitizes_C6 "Chrome;rm -rf ~").2.2.1 "darwin" (by decide)⟩

/-- **C7.** `runSafeCommand` on a catalog key whose command-template map has no
entry for the current platform returns the platform-unsupported failure result
and never reaches the spawning outcome. -/
theorem runSafeCommand_platform_unsupported_C7 :
    ∀ (platform commandKey : String) (commandMap : List (String × String)),
      List.lookup commandKey CommandExecutor.safeCommands = some commandMap →
      List.lookup platform commandMap = none →
      CommandExecutor.runSafeCommand platform commandKey =
        CommandExecutor.SafeCmdOutcome.unsupported
          ("Command not supported on " ++ platform) ∧
      (∀ c t b, CommandExecutor.runSafeCommand platform commandKey ≠
        CommandExecutor.SafeCmdOutcome.spawned c t b) := by
  intro platform commandKey commandMap h1 h2
  have hres : CommandExecutor.runSafeCommand platform commandKey =
      CommandExecutor.SafeCmdOutcome.unsupported
        ("Command not supported on " ++ platform) := by
    simp [CommandExecutor.runSafeCommand, h1, h2]
  exact ⟨hres, by intro c t b; rw [hres]; simp⟩

/-- Witness for C7: the catalog maps every key to darwin/win32/linux only, so
an unlisted platform (for example `freebsd`) misses every template map. -/
theorem runSafeCommand_platform_unsupported_C7_witness :
    CommandExecutor.runSafeCommand "freebsd" "disk-usage" =
      CommandExecutor.SafeCmdOutcome.unsupported "Command not supported on freebsd" :=
  (runSafeCommand_platform_unsupported_C7 "freebsd" "disk-usage"
    [("darwin", "df -h"),
     ("win32", "wmic logicaldisk get size,freespace,caption"),
     ("linux", "df -h")] (by decide) (by decide)).1

/-- **C8 (counterexample).** The claim covers both audit sinks it cites, but
`SolutionEngine.log` keeps no bound at all: appending 150 entries leaves 150
in `auditLog`, exceeding the claimed capacity of 100. -/
theorem solutionEngine_log_unbounded_C8_counterexample :
    ((List.replicate 150
        ({ timestamp := "2026-01-01T00:00:00.000Z", action := "execute",
           details := none, platform := "darwin" } : SolutionEngine.AuditEntry)).foldl
      SolutionEngine.log []).length = 150 ∧
    ¬ ((150 : Nat) ≤ 100) := by
  constructor
  · decide
  · decide

/-- **C8 (amended).** `CommandExecutor`'s command history is a bounded ring
buffer of capacity 100: folding any sequence of appends through `logCommand`
keeps exactly the most recent 100 records in order (after 150 appends, records
50..149), and the length never exceeds 100; `SolutionEngine.auditLog`, by
contrast, is unbounded (see the counterexample). -/
theorem logCommand_ring_buffer_C8 :
    ∀ (records : List CommandExecutor.AuditRecord),
      records.foldl CommandExecutor.logCommand [] =
        records.drop (records.length - 100) ∧
      (records.foldl CommandExecutor.logCommand []).length ≤ 100 := by
  intro records
  refine ⟨CommandExecutor.foldl_logCommand_eq_drop records, ?_⟩
  rw [CommandExecutor.foldl_logCommand_eq_drop records, List.length_drop]
  omega

/-- **C9.** The output value embedded in a constructed `[SYSTEM_RESULT: ...]`
block is `result.output.substring(0, 1500)`: at most 1500 characters (hence
within the claimed 1500–2000 bound) regardless of the captured output size. -/
theorem systemResult_output_truncated_C9 :
    ∀ (queryType : String) (r : Renderer.QueryResult),
      r.success = true → r.output.isEmpty = false →
      Renderer.systemResultMessage queryType r =
        "[SYSTEM_RESULT: queryType=\"" ++ queryType ++ "\" output=\"" ++
          Renderer.strTake r.output 1500 ++ "\"]" ∧
      (Renderer.strTake r.output 1500).length ≤ 1500 ∧ (1500 : Nat) ≤ 2000 := by
  intro queryType r h1 h2
  refine ⟨?_, ?_, by omega⟩
  · simp [Renderer.systemResultMessage, h1, h2]
  · show (String.mk (r.output.data.take 1500)).length ≤ 1500
    have : (String.mk (r.output.data.take 1500)).length = (r.output.data.take 1500).length := rfl
    rw [this, List.length_take]
    omega

/-- Witness for C9: a 1600-character output is embedded truncated. -/
theorem systemResult_output_truncated_C9_witness :
    Renderer.systemResultMessage "uptime"
        { success := true, output := String.mk (List.replicate 1600 'x'), error := "" } =
      "[SYSTEM_RESULT: queryType=\"uptime\" output=\"" ++
        Renderer.strTake (String.mk (List.replicate 1600 'x')) 1500 ++ "\"]" ∧
    (Renderer.strTake (String.mk (List.replicate 1600 'x')) 1500).length ≤ 1500 ∧
    (1500 : Nat) ≤ 2000 :=
  systemResult_output_truncated_C9 "uptime"
    { success := true, output := String.mk (List.replicate 1600 'x'), error := "" }
    rfl (by decide)

/-- **C10.** `SolutionEngine.execute` on `null`/`undefined` input or a solution
lacking a (truthy) `type` field throws `'Invalid solution provided'`: the
outcome is the thrown error, no handler is reached, and the appended audit-log
entry list is empty (no classification, logging, or dispatch occurs). -/
theorem execute_invalid_solution_throws_C10 :
    ∀ (platform now : String) (sol? : Option SolutionEngine.Solution),
      (sol? = none ∨
        ∃ sol, sol? = some sol ∧ (sol.type? = none ∨ sol.type? = some "")) →
      SolutionEngine.execute platform now sol? =
        (SolutionEngine.ExecuteOutcome.thrown "Invalid solution provided", []) := by
  intro platform now sol? h
  rcases h with h | ⟨sol, hs, ht⟩
  · subst h; rfl
  · subst hs
    rcases ht with ht | ht <;> simp [SolutionEngine.execute, ht]

/-- Witness for C10: a null solution and a solution without `type` both throw. -/
theorem execute_invalid_solution_throws_C10_witness :
    SolutionEngine.execute "darwin" "2026-01-01T00:00:00.000Z" none =
      (SolutionEngine.ExecuteOutcome.thrown "Invalid solution provided", []) ∧
    SolutionEngine.execute "darwin" "2026-01-01T00:00:00.000Z"
        (some { type? := none, pid := some 42, processName := none,
                cacheType := none, serviceName := none, action := none }) =
      (SolutionEngine.ExecuteOutcome.thrown "Invalid solution provided", []) :=
  ⟨execute_invalid_solution_throws_C10 "darwin" "2026-01-01T00:00:00.000Z" none (Or.inl rfl),
    execute_invalid_solution_throws_C10 "darwin" "2026-01-01T00:00:00.000Z"
      (some { type? := none, pid := some 42, processName := none,
              cacheType := none, serviceName := none, action := none })
      (Or.inr ⟨_, rfl, Or.inl rfl⟩)⟩

end Relay
